import Mathlib

/-!
Shallow embedding of `src/supervisor/arch.py` (class `CpuArch`) and
verification of the specification's claims about it.

Modelling decisions:
* Python strings are Lean `String`; the host machine type (`sys_machine`)
  is a `String` where `""` models the falsy / absent value.
* The compatibility table read (`read_json_file`) is an input of `load`:
  `none` models a `ConfigurationFileError` being raised by the read,
  `some d` models a successfully parsed JSON object `d` (an association
  list from machine-type keys to lists of architecture tags).
* A Python exception escaping `load` (e.g. `IndexError`) is modelled by
  `load` returning `none`; a normal return is `some st` with the new state.
* `match` raising `HassioArchNotFound` is modelled by returning `none`.
* The unassigned attribute `_default_arch` (the constructor only carries a
  type annotation, so the attribute does not exist before `load` sets it)
  is modelled as `Option String`, `none` meaning "access raises
  `AttributeError`".
-/

namespace SupervisorArch

/-- Python `pat in s` substring containment on strings. -/
def containsSub (s pat : String) : Bool :=
  decide (List.IsInfix pat.data s.data)

/-- Python `str.lower()` (the strings handled here are ASCII, so per-character
ASCII lowering is exact). Defined on the character list so that it reduces
inside the kernel. -/
def pyLower (s : String) : String :=
  ⟨s.data.map Char.toLower⟩

/-- Association-list lookup modelling Python `dict` indexing / `key in dict`
(`some v` iff the key is present, mapped to `v`). -/
def dictLookup {α : Type} : List (String × α) → String → Option α
  | [], _ => none
  | (k, v) :: rest, m => if m = k then some v else dictLookup rest m

/-- The module-level constant `MAP_CPU` of `arch.py`. -/
def MAP_CPU : List (String × String) :=
  [("armv7", "armv7"), ("armv6", "armhf"), ("armv8", "aarch64"),
   ("aarch64", "aarch64"), ("i686", "i386"), ("x86_64", "amd64")]

/-- Embedding of `CpuArch.detect_cpu`, as a function of the raw CPU string
reported by `platform.machine()`. -/
def detect_cpu (raw : String) : String :=
  let cpu_arch := pyLower raw
  match dictLookup MAP_CPU cpu_arch with
  | some t => t
  | none =>
    if containsSub cpu_arch "aarch64" then "aarch64"
    else if containsSub cpu_arch "arm" && containsSub cpu_arch "v8" then "aarch64"
    else if containsSub cpu_arch "arm" && containsSub cpu_arch "v7" then "armv7"
    else if containsSub cpu_arch "arm" then "armhf"
    else "amd64"

/-- The mutable state of a `CpuArch` instance. -/
structure State where
  supported_arch : List String
  supported_set : Finset String
  default_arch : Option String
deriving DecidableEq

/-- The state right after `CpuArch.__init__`: empty list, empty set, and
`_default_arch` not assigned (annotation only). -/
def initState : State :=
  { supported_arch := [], supported_set := ∅, default_arch := none }

/-- The environment a single `load()` call observes: the result of reading
`ARCH_JSON` (`none` = `ConfigurationFileError`), `self.sys_machine`
(`""` = falsy), and the raw `platform.machine()` string. -/
structure Env where
  table : Option (List (String × List String))
  machine : String
  rawCpu : String

/-- Embedding of `CpuArch.load`. Returns `none` when a Python exception
escapes (the only possible one is the `IndexError` from `self.supported[0]`
on an empty list), `some st` when `load` returns normally with state `st`. -/
def load (st : State) (env : Env) : Option State :=
  match env.table with
  | none => some st
  | some arch_data =>
    let native_support := detect_cpu env.rawCpu
    if env.machine = "" then
      let sa := st.supported_arch ++ [native_support]
      some { supported_arch := sa, supported_set := sa.toFinset,
             default_arch := some native_support }
    else if native_support = "aarch64" ∨ env.machine = "aarch64" then
      some { supported_arch := ["aarch64", "armv7", "armhf"],
             supported_set := (["aarch64", "armv7", "armhf"] : List String).toFinset,
             default_arch := some "aarch64" }
    else
      match dictLookup arch_data env.machine with
      | some entry =>
        let sa1 := st.supported_arch ++ entry
        match sa1.head? with
        | none => none
        | some d =>
          let sa2 := if native_support ∈ sa1 then sa1 else sa1 ++ [native_support]
          some { supported_arch := sa2, supported_set := sa2.toFinset,
                 default_arch := some d }
      | none =>
        let sa1 := st.supported_arch ++ [native_support]
        let sa2 := if native_support ∈ sa1 then sa1 else sa1 ++ [native_support]
        some { supported_arch := sa2, supported_set := sa2.toFinset,
               default_arch := some native_support }

/-- Embedding of `CpuArch.is_supported`:
`not self._supported_set.isdisjoint(arch_list)`. -/
def is_supported (st : State) (arch_list : List String) : Bool :=
  arch_list.any (fun a => decide (a ∈ st.supported_set))

/-- Embedding of `CpuArch.match` (named `matchArch` because `match` is a
Lean keyword). `none` models the raised `HassioArchNotFound`. -/
def matchArch (st : State) (arch_list : List String) : Option String :=
  st.supported_arch.find? (fun a => decide (a ∈ arch_list))

/-- Embedding of the `default` property. `none` models the `AttributeError`
raised when `_default_arch` was never assigned. -/
def defaultProp (st : State) : Option String :=
  st.default_arch

/-- Specification-side description of `detectCpu`, written from the spec's
words for §4.1 "Operation: detectCpu": exact match against the six
`CpuFamilyMap` entries takes precedence, then the four substring tests in
their fixed order, else the `amd64` default. Used only to be compared with
`detect_cpu`, which is translated from the code. -/
def detect_cpu_spec (raw : String) : String :=
  let c := pyLower raw
  if c = "armv7" then "armv7"
  else if c = "armv6" then "armhf"
  else if c = "armv8" then "aarch64"
  else if c = "aarch64" then "aarch64"
  else if c = "i686" then "i386"
  else if c = "x86_64" then "amd64"
  else if containsSub c "aarch64" then "aarch64"
  else if containsSub c "arm" && containsSub c "v8" then "aarch64"
  else if containsSub c "arm" && containsSub c "v7" then "armv7"
  else if containsSub c "arm" then "armhf"
  else "amd64"

theorem dictLookup_mem {α : Type} {d : List (String × α)} {m : String} {v : α}
    (h : dictLookup d m = some v) : (m, v) ∈ d := by
  induction d with
  | nil => simp [dictLookup] at h
  | cons p rest ih =>
    obtain ⟨k, w⟩ := p
    by_cases hk : m = k
    · rw [dictLookup, if_pos hk] at h
      injection h with h
      subst hk; subst h
      exact List.mem_cons_self _ _
    · rw [dictLookup, if_neg hk] at h
      exact List.mem_cons_of_mem _ (ih h)

set_option maxHeartbeats 1600000 in
/-- C4: `detect_cpu` is a total function of the lower-cased raw CPU string,
agreeing everywhere with the spec's description (six exact `MAP_CPU` keys
take precedence, then the substring tests in their fixed order, else
`amd64`), and it produces the five example outputs the spec lists. -/
theorem claim_C4 :
    (∀ raw, detect_cpu raw = detect_cpu_spec raw) ∧
    detect_cpu "aarch64-foo" = "aarch64" ∧
    detect_cpu "armv8l" = "aarch64" ∧
    detect_cpu "armv7l" = "armv7" ∧
    detect_cpu "armfoo" = "armhf" ∧
    detect_cpu "unknownarch" = "amd64" := by
  refine ⟨fun raw => ?_, by decide, by decide, by decide, by decide, by decide⟩
  unfold detect_cpu detect_cpu_spec MAP_CPU
  simp only [dictLookup]
  split_ifs <;> rfl

/-- C9: when reading the compatibility table fails
(`ConfigurationFileError`), `load` returns normally with the state
unchanged; in particular a first call leaves `supported_arch = []` and
`supported_set = ∅`. -/
theorem claim_C9 (st : State) (env : Env) (h : env.table = none) :
    load st env = some st ∧ initState.supported_arch = [] ∧
    initState.supported_set = ∅ := by
  refine ⟨?_, rfl, rfl⟩
  unfold load
  rw [h]

theorem claim_C9_witness :
    load initState ⟨none, "m", "x86_64"⟩ = some initState ∧
    initState.supported_arch = [] ∧ initState.supported_set = ∅ :=
  claim_C9 initState ⟨none, "m", "x86_64"⟩ rfl

/-- C10: before any `load` populates the state (the constructor only
annotates `_default_arch` without assigning it), accessing the `default`
property fails (modelled by `none`, the `AttributeError`), while
`supported_arch` and `supported_set` read as empty; and a `load` whose
table read failed leaves `default` in the same failing state. -/
theorem claim_C10 :
    defaultProp initState = none ∧ initState.supported_arch = [] ∧
    initState.supported_set = ∅ ∧
    ∀ env, env.table = none →
      ∃ st, load initState env = some st ∧ defaultProp st = none := by
  refine ⟨rfl, rfl, rfl, fun env h => ⟨initState, ?_, rfl⟩⟩
  unfold load
  rw [h]

theorem claim_C10_witness :
    ∃ st, load initState ⟨none, "", ""⟩ = some st ∧ defaultProp st = none :=
  claim_C10.2.2.2 ⟨none, "", ""⟩ rfl

/-- C8: `is_supported` returns `true` iff `supported_set` and the input
list share at least one element; with an empty `supported_set` it returns
`false` on every input (and, being a pure function of the state, it never
mutates the resolver). -/
theorem claim_C8 (st : State) (l : List String) :
    (is_supported st l = true ↔ ∃ a, a ∈ st.supported_set ∧ a ∈ l) ∧
    (st.supported_set = ∅ → is_supported st l = false) := by
  constructor
  · unfold is_supported
    simp only [List.any_eq_true, decide_eq_true_eq]
    exact ⟨fun ⟨x, h1, h2⟩ => ⟨x, h2, h1⟩, fun ⟨x, h1, h2⟩ => ⟨x, h2, h1⟩⟩
  · intro h
    unfold is_supported
    simp [h]

theorem claim_C8_witness :
    is_supported initState ["amd64"] = false :=
  (claim_C8 initState ["amd64"]).2 rfl

/-- C7: `matchArch` returns (`some a`) exactly the first element of
`supported_arch`, in the resolver's stored preference order, that appears
in the input list; it fails (`none`, modelling `HassioArchNotFound`) iff no
element of `supported_arch` appears in the input — in particular always
when `supported_arch` is empty; and its result is invariant under
permutations of the input list. -/
theorem claim_C7 (st : State) (l : List String) :
    (∀ a, matchArch st l = some a ↔
      (a ∈ l ∧ ∃ pre post, st.supported_arch = pre ++ a :: post ∧
        ∀ b ∈ pre, b ∉ l)) ∧
    (matchArch st l = none ↔ ∀ b ∈ st.supported_arch, b ∉ l) ∧
    (st.supported_arch = [] → matchArch st l = none) ∧
    (∀ l2, l.Perm l2 → matchArch st l = matchArch st l2) := by
  refine ⟨fun a => ?_, ?_, fun h => ?_, fun l2 hp => ?_⟩
  · unfold matchArch
    rw [List.find?_eq_some]
    simp only [decide_eq_true_eq, Bool.not_eq_true', decide_eq_false_iff_not]
  · unfold matchArch
    simp only [List.find?_eq_none, decide_eq_true_eq]
  · unfold matchArch
    rw [h]
    rfl
  · unfold matchArch
    have hpe : (fun a => decide (a ∈ l)) = fun a => decide (a ∈ l2) := by
      funext a
      simp only [decide_eq_decide]
      exact hp.mem_iff
    rw [hpe]

theorem claim_C7_witness :
    matchArch { supported_arch := ["i386", "amd64"], supported_set := ∅,
                default_arch := none } ["amd64", "i386"] = some "i386" :=
  ((claim_C7 { supported_arch := ["i386", "amd64"], supported_set := ∅,
               default_arch := none } ["amd64", "i386"]).1 "i386").mpr
    ⟨by decide, [], ["amd64"], rfl, by decide⟩

/-- C3: whenever the table read succeeded, the machine type is non-empty,
and either the detected native tag is `aarch64` or the machine-type string
is exactly `"aarch64"`, `load` installs `default_arch = "aarch64"` and
`supported_arch = ["aarch64", "armv7", "armhf"]` in that fixed order,
whatever the table says and whatever the prior state was. -/
theorem claim_C3 (st : State) (env : Env) (d : List (String × List String))
    (htab : env.table = some d) (hm : env.machine ≠ "")
    (hover : detect_cpu env.rawCpu = "aarch64" ∨ env.machine = "aarch64") :
    load st env = some
      { supported_arch := ["aarch64", "armv7", "armhf"],
        supported_set := (["aarch64", "armv7", "armhf"] : List String).toFinset,
        default_arch := some "aarch64" } := by
  unfold load
  rw [htab]
  dsimp only
  rw [if_neg hm, if_pos hover]

theorem claim_C3_witness :
    load initState ⟨some [("aarch64", ["amd64"])], "aarch64", "x86_64"⟩ = some
      { supported_arch := ["aarch64", "armv7", "armhf"],
        supported_set := (["aarch64", "armv7", "armhf"] : List String).toFinset,
        default_arch := some "aarch64" } :=
  claim_C3 initState ⟨some [("aarch64", ["amd64"])], "aarch64", "x86_64"⟩
    [("aarch64", ["amd64"])] rfl (by decide) (Or.inr rfl)

/-- C1 (counterexample): with a table whose entry for the host's machine
type is the empty list (machine `"m"`, raw CPU `"x86_64"`), `load` starting
from the initial state raises (`IndexError` from `self.supported[0]`,
modelled by `none`) instead of returning. -/
theorem claim_C1_counterexample :
    load initState ⟨some [("m", [])], "m", "x86_64"⟩ = none := by decide

/-- C1 (amended): provided every entry of the compatibility table is a
non-empty list, `load` returns without raising, from any prior state and
in every machine-type / raw-CPU environment (table read failure included,
since that is only logged). -/
theorem claim_C1 (st : State) (env : Env)
    (hne : ∀ p ∈ env.table.getD [], p.2 ≠ ([] : List String)) :
    (load st env).isSome := by
  unfold load
  cases htab : env.table with
  | none => rfl
  | some d =>
    dsimp only
    by_cases h1 : env.machine = ""
    · rw [if_pos h1]
      rfl
    · rw [if_neg h1]
      by_cases h2 : detect_cpu env.rawCpu = "aarch64" ∨ env.machine = "aarch64"
      · rw [if_pos h2]
        rfl
      · rw [if_neg h2]
        split
        · rename_i entry hlk
          split
          · rename_i hh
            have hentry : entry ≠ [] :=
              hne (env.machine, entry) (by rw [htab]; exact dictLookup_mem hlk)
            have hsa : st.supported_arch ++ entry ≠ [] := by
              simp [hentry]
            exact absurd (List.head?_eq_none_iff.mp hh) hsa
          · rfl
        · rfl

theorem claim_C1_witness :
    (load initState ⟨some [("rpi", ["armv7", "armhf"])], "rpi",
      "x86_64"⟩).isSome :=
  claim_C1 initState ⟨some [("rpi", ["armv7", "armhf"])], "rpi", "x86_64"⟩
    (by decide)

/-- C2: every `load` call that observed a successful table read and
returned normally leaves a state whose `supported_set` is exactly the set
of elements of `supported_arch`, and whose `default_arch` is an assigned
member of `supported_arch` whenever `supported_arch` is non-empty — from
any prior state. -/
theorem claim_C2 (st st2 : State) (env : Env) (d : List (String × List String))
    (htab : env.table = some d) (hld : load st env = some st2) :
    st2.supported_set = st2.supported_arch.toFinset ∧
    (st2.supported_arch ≠ [] →
      ∃ a, st2.default_arch = some a ∧ a ∈ st2.supported_arch) := by
  unfold load at hld
  rw [htab] at hld
  dsimp only at hld
  by_cases h1 : env.machine = ""
  · rw [if_pos h1] at hld
    cases hld
    refine ⟨rfl, fun _ => ⟨detect_cpu env.rawCpu, rfl, ?_⟩⟩
    exact List.mem_append_right _ (List.mem_singleton.mpr rfl)
  · rw [if_neg h1] at hld
    by_cases h2 : detect_cpu env.rawCpu = "aarch64" ∨ env.machine = "aarch64"
    · rw [if_pos h2] at hld
      cases hld
      exact ⟨rfl, fun _ => ⟨"aarch64", rfl, by decide⟩⟩
    · rw [if_neg h2] at hld
      split at hld
      · rename_i entry hlk
        split at hld
        · exact Option.noConfusion hld
        · rename_i a hh
          cases hld
          refine ⟨rfl, fun _ => ⟨a, rfl, ?_⟩⟩
          have ha : a ∈ st.supported_arch ++ entry :=
            List.mem_of_mem_head? (Option.mem_def.mpr hh)
          by_cases hmem : detect_cpu env.rawCpu ∈ st.supported_arch ++ entry
          · rw [if_pos hmem]
            exact ha
          · rw [if_neg hmem]
            exact List.mem_append_left _ ha
      · rename_i hlk
        cases hld
        refine ⟨rfl, fun _ => ⟨detect_cpu env.rawCpu, rfl, ?_⟩⟩
        have hmem : detect_cpu env.rawCpu ∈
            st.supported_arch ++ [detect_cpu env.rawCpu] :=
          List.mem_append_right _ (List.mem_singleton.mpr rfl)
        rw [if_pos hmem]
        exact hmem

theorem claim_C2_witness :
    ({ supported_arch := ["armv7", "amd64"],
       supported_set := (["armv7", "amd64"] : List String).toFinset,
       default_arch := some "armv7" } : State).supported_set =
      (({ supported_arch := ["armv7", "amd64"],
          supported_set := (["armv7", "amd64"] : List String).toFinset,
          default_arch := some "armv7" } : State).supported_arch).toFinset ∧
    (({ supported_arch := ["armv7", "amd64"],
        supported_set := (["armv7", "amd64"] : List String).toFinset,
        default_arch := some "armv7" } : State).supported_arch ≠ [] →
      ∃ a, ({ supported_arch := ["armv7", "amd64"],
              supported_set := (["armv7", "amd64"] : List String).toFinset,
              default_arch := some "armv7" } : State).default_arch = some a ∧
        a ∈ ({ supported_arch := ["armv7", "amd64"],
               supported_set := (["armv7", "amd64"] : List String).toFinset,
               default_arch := some "armv7" } : State).supported_arch) :=
  claim_C2 initState _ ⟨some [("rpi", ["armv7"])], "rpi", "x86_64"⟩
    [("rpi", ["armv7"])] rfl (by decide)

/-- C5: on a first `load` with a readable table, a non-empty machine type,
the aarch64 override not applying, and the machine type mapped by the
table to a non-empty entry, `supported_arch` becomes that entry in table
order with the native tag appended exactly when absent from it, and
`default_arch` becomes the entry's first element. -/
theorem claim_C5 (env : Env) (d : List (String × List String))
    (entry : List String) (htab : env.table = some d)
    (hm : env.machine ≠ "") (hnat : detect_cpu env.rawCpu ≠ "aarch64")
    (hm64 : env.machine ≠ "aarch64")
    (hlk : dictLookup d env.machine = some entry) (hne : entry ≠ []) :
    load initState env = some
      { supported_arch :=
          if detect_cpu env.rawCpu ∈ entry then entry
          else entry ++ [detect_cpu env.rawCpu],
        supported_set :=
          (if detect_cpu env.rawCpu ∈ entry then entry
           else entry ++ [detect_cpu env.rawCpu]).toFinset,
        default_arch := entry.head? } := by
  obtain ⟨a, tl, rfl⟩ : ∃ a tl, entry = a :: tl := by
    cases entry with
    | nil => exact absurd rfl hne
    | cons a tl => exact ⟨a, tl, rfl⟩
  unfold load
  rw [htab]
  dsimp only
  rw [if_neg hm, if_neg (not_or.mpr ⟨hnat, hm64⟩)]
  split
  · rename_i entry2 hlk2
    rw [hlk] at hlk2
    injection hlk2 with h
    subst h
    rfl
  · rename_i hlk2
    rw [hlk] at hlk2
    exact Option.noConfusion hlk2

theorem claim_C5_witness :
    load initState ⟨some [("rpi", ["armv7", "armhf"])], "rpi", "x86_64"⟩ =
      some
      { supported_arch := ["armv7", "armhf", "amd64"],
        supported_set := (["armv7", "armhf", "amd64"] : List String).toFinset,
        default_arch := some "armv7" } :=
  (claim_C5 ⟨some [("rpi", ["armv7", "armhf"])], "rpi", "x86_64"⟩
      [("rpi", ["armv7", "armhf"])] ["armv7", "armhf"] rfl (by decide)
      (by decide) (by decide) rfl (by decide)).trans (by decide)

/-- C6 (counterexample): with an empty compatibility table (so the machine
type `"m"` is certainly not a key) and raw CPU `"aarch64"`, `load` does
not produce `supported_arch = [detect_cpu()]`: the aarch64 override fires
first and installs the three-element list. -/
theorem claim_C6_counterexample :
    (load initState ⟨some [], "m", "aarch64"⟩).map State.supported_arch ≠
      some [detect_cpu "aarch64"] := by decide

/-- C6 (amended): on a first `load` with a readable table, if the machine
type is absent/empty — for every native tag, aarch64 included — or if the
machine type is not a key of the table and additionally the aarch64
override does not apply, then `supported_arch = [detect_cpu()]` and
`default_arch = detect_cpu()`. -/
theorem claim_C6 (env : Env) (d : List (String × List String))
    (htab : env.table = some d)
    (h : env.machine = "" ∨
      (dictLookup d env.machine = none ∧ detect_cpu env.rawCpu ≠ "aarch64" ∧
        env.machine ≠ "aarch64")) :
    load initState env = some
      { supported_arch := [detect_cpu env.rawCpu],
        supported_set := ([detect_cpu env.rawCpu] : List String).toFinset,
        default_arch := some (detect_cpu env.rawCpu) } := by
  unfold load
  rw [htab]
  dsimp only
  by_cases h1 : env.machine = ""
  · rw [if_pos h1]
    rfl
  · rcases h with h | ⟨hlk, hnat, hm64⟩
    · exact absurd h h1
    rw [if_neg h1, if_neg (not_or.mpr ⟨hnat, hm64⟩)]
    split
    · rename_i entry2 hlk2
      rw [hlk] at hlk2
      exact Option.noConfusion hlk2
    · have hmem : detect_cpu env.rawCpu ∈
          initState.supported_arch ++ [detect_cpu env.rawCpu] :=
        List.mem_append_right _ (List.mem_singleton.mpr rfl)
      rw [if_pos hmem]
      rfl

theorem claim_C6_witness :
    load initState ⟨some [], "", "aarch64"⟩ = some
      { supported_arch := ["aarch64"],
        supported_set := (["aarch64"] : List String).toFinset,
        default_arch := some "aarch64" } :=
  (claim_C6 ⟨some [], "", "aarch64"⟩ [] rfl (Or.inl rfl)).trans (by decide)

end SupervisorArch
